import Mathlib

/-!
Shallow embedding of the core of the ostium-trading repository
(src/trading.py and src/main.py) and proofs about it.

Python floats are modelled as exact rationals; the Python built-in
round(x, n) is modelled as round-half-to-even on the exact rational,
which is the documented behaviour of round on floats. Fallible Python
code (raised exceptions) is modelled with Except.
-/

namespace Ostium

/-- Round-half-to-even on rationals, modelling the Python built-in round
of a float to an integer. -/
def roundHalfEven (q : ℚ) : ℤ :=
  let f := Rat.floor q
  let frac := q - (f : ℚ)
  if frac < 1 / 2 then f
  else if 1 / 2 < frac then f + 1
  else if f % 2 = 0 then f else f + 1

/-- Python round(q, n): round to n decimal digits, half to even. -/
def pyRound (q : ℚ) (n : ℕ) : ℚ :=
  ((roundHalfEven (q * 10 ^ n) : ℤ) : ℚ) / 10 ^ n

/-- Python str.upper() on the character list of the string (the symbols
handled by the program are plain ASCII). -/
def pyUpper (s : String) : String := String.mk (s.data.map Char.toUpper)

theorem ratFloor_eq_intFloor (q : ℚ) : Rat.floor q = ⌊q⌋ := by
  rw [Rat.floor_def', Rat.floor_def]

theorem roundHalfEven_intCast (n : ℤ) : roundHalfEven (n : ℚ) = n := by
  unfold roundHalfEven
  rw [ratFloor_eq_intFloor, Int.floor_intCast]
  simp

theorem pyRound_intCast (n : ℤ) (d : ℕ) : pyRound (n : ℚ) d = n := by
  unfold pyRound
  have h : ((n : ℚ) * 10 ^ d) = ((n * 10 ^ d : ℤ) : ℚ) := by push_cast; ring
  rw [h, roundHalfEven_intCast]
  push_cast
  rw [mul_div_assoc, div_self (by positivity), mul_one]

/-- Embedding of compute_drawdown (src/trading.py lines 24-35).
Returns the drawdown in percent, 0 when the PnL is nonnegative,
including leverage; guarded on nonpositive entry price or leverage. -/
def compute_drawdown (entry_price current_price : ℚ) (is_long : Bool)
    (leverage : ℚ) : ℚ :=
  if entry_price ≤ 0 ∨ leverage ≤ 0 then 0
  else
    let price_move_pct := ((current_price - entry_price) / entry_price) * 100
    let pnl_pct := price_move_pct * (if is_long then 1 else -1) * leverage
    max 0 (-pnl_pct)

/-- Embedding of compute_tp_sl_prices (src/trading.py lines 38-64).
Computes TP and SL price levels from PnL targets in percent on margin:
price move is target / 100 / leverage applied to the entry price. -/
def compute_tp_sl_prices (entry_price leverage : ℚ) (tp_pnl_targets : List ℚ)
    (sl_pnl : Option ℚ) (is_long : Bool) : List ℚ × Option ℚ :=
  if entry_price ≤ 0 ∨ leverage ≤ 0 then ([], none)
  else
    let tp_prices := tp_pnl_targets.map (fun target =>
      let move := (target / 100) / leverage
      entry_price * (if is_long then 1 + move else 1 - move))
    let sl_price := sl_pnl.map (fun sl =>
      let move := (sl / 100) / leverage
      entry_price * (if is_long then 1 + move else 1 - move))
    (tp_prices, sl_price)

/-- C1: for positive entry price and leverage, compute_drawdown equals
max 0 (-pnl_pct) with pnl_pct = ((current - entry) / entry * 100) *
(1 if long else -1) * leverage; the result is always nonnegative; a
profitable position reports exactly 0; and for nonpositive entry price
or leverage the result is exactly 0. -/
theorem compute_drawdown_spec :
    (∀ (e c l : ℚ) (b : Bool), 0 < e → 0 < l →
      compute_drawdown e c b l
        = max 0 (-(((c - e) / e * 100) * (if b then 1 else -1) * l))) ∧
    (∀ (e c l : ℚ) (b : Bool), 0 ≤ compute_drawdown e c b l) ∧
    (∀ (e c l : ℚ) (b : Bool), 0 < e → 0 < l →
      0 ≤ ((c - e) / e * 100) * (if b then 1 else -1) * l →
      compute_drawdown e c b l = 0) ∧
    (∀ (e c l : ℚ) (b : Bool), e ≤ 0 ∨ l ≤ 0 → compute_drawdown e c b l = 0) := by
  refine ⟨?_, ?_, ?_, ?_⟩
  · intro e c l b he hl
    unfold compute_drawdown
    rw [if_neg]
    push_neg
    exact ⟨he, hl⟩
  · intro e c l b
    unfold compute_drawdown
    split
    · exact le_refl 0
    · exact le_max_left 0 _
  · intro e c l b he hl hp
    unfold compute_drawdown
    rw [if_neg]
    · simp only [max_eq_left_iff, neg_nonpos]
      exact hp
    · push_neg
      exact ⟨he, hl⟩
  · intro e c l b h
    unfold compute_drawdown
    rw [if_pos h]

/-- Witness for compute_drawdown_spec at concrete inputs. -/
theorem compute_drawdown_spec_w :
    ((0:ℚ) < 100 ∧ (0:ℚ) < 2 ∧
      compute_drawdown 100 90 true 2
        = max 0 (-((((90:ℚ) - 100) / 100 * 100) * (if true then 1 else -1) * 2))) ∧
    ((0:ℚ) ≤ 0 ∨ (2:ℚ) ≤ 0) ∧ compute_drawdown 0 100 true 2 = 0 := by
  refine ⟨⟨by norm_num, by norm_num, ?_⟩, Or.inl (le_refl 0), ?_⟩
  · exact compute_drawdown_spec.1 100 90 2 true (by norm_num) (by norm_num)
  · exact compute_drawdown_spec.2.2.2 0 100 2 true (Or.inl (le_refl 0))

/-- C2: for positive entry price and leverage, compute_tp_sl_prices maps
each TP target t, in order, to entry * (1 + (t/100)/leverage) when long
and entry * (1 - (t/100)/leverage) otherwise, with the same formula for
the optional SL; the output TP list has the same length and order as the
input; and for nonpositive entry price or leverage it returns ([], none). -/
theorem compute_tp_sl_prices_spec :
    (∀ (e l : ℚ) (tps : List ℚ) (slo : Option ℚ) (b : Bool), 0 < e → 0 < l →
      (compute_tp_sl_prices e l tps slo b).1.length = tps.length ∧
      (∀ i : ℕ, (compute_tp_sl_prices e l tps slo b).1[i]?
        = tps[i]?.map (fun t =>
            e * (if b then 1 + (t / 100) / l else 1 - (t / 100) / l))) ∧
      (∀ s : ℚ, slo = some s → (compute_tp_sl_prices e l tps slo b).2
        = some (e * (if b then 1 + (s / 100) / l else 1 - (s / 100) / l)))) ∧
    (∀ (e l : ℚ) (tps : List ℚ) (slo : Option ℚ) (b : Bool),
      e ≤ 0 ∨ l ≤ 0 → compute_tp_sl_prices e l tps slo b = ([], none)) := by
  constructor
  · intro e l tps slo b he hl
    have hg : ¬ (e ≤ 0 ∨ l ≤ 0) := by push_neg; exact ⟨he, hl⟩
    unfold compute_tp_sl_prices
    rw [if_neg hg]
    refine ⟨by simp, ?_, ?_⟩
    · intro i
      simp [List.getElem?_map]
    · intro s hs
      subst hs
      simp [Option.map]
  · intro e l tps slo b h
    unfold compute_tp_sl_prices
    rw [if_pos h]

/-- Witness for compute_tp_sl_prices_spec at concrete inputs. -/
theorem compute_tp_sl_prices_spec_w :
    ((0:ℚ) < 100 ∧ (0:ℚ) < 2 ∧
      (compute_tp_sl_prices 100 2 [5, 10] (some (-10)) true).1.length
        = ([5, 10] : List ℚ).length) ∧
    ((0:ℚ) ≤ 0 ∨ (2:ℚ) ≤ 0) ∧
      compute_tp_sl_prices 0 2 [5] none true = ([], none) := by
  refine ⟨⟨by norm_num, by norm_num, ?_⟩, Or.inl (le_refl 0), ?_⟩
  · exact (compute_tp_sl_prices_spec.1 100 2 [5, 10] (some (-10)) true
      (by norm_num) (by norm_num)).1
  · exact compute_tp_sl_prices_spec.2 0 2 [5] none true (Or.inl (le_refl 0))

/-- Embedding of TradingClient._price_precision (src/trading.py lines
114-126): 2 decimals for BTC, ETH, XAU, XAG quoted in USD, 4 for other
USD-quoted pairs, 8 otherwise. -/
def price_precision (base quote : String) : ℕ :=
  let base_up := pyUpper base
  let quote_up := pyUpper quote
  if quote_up = "USD" then
    if base_up = "BTC" ∨ base_up = "ETH" then 2
    else if base_up = "XAU" ∨ base_up = "XAG" then 2
    else 4
  else 8

/-- One order leg as built by open_copy_trade (src/trading.py 281-290). -/
structure Leg where
  collateral : ℚ
  asset_type : ℕ
  direction : Bool
  leverage : ℚ
  tp : ℚ
  sl : ℚ
deriving DecidableEq

/-- The while loop of open_copy_trade (src/trading.py 275-276): append
the last TP (or the current price when the list is empty) until the list
has at least three entries. -/
def padTo3 (l : List ℚ) (current_price : ℚ) : List ℚ :=
  match l with
  | [] => [current_price, current_price, current_price]
  | [a] => [a, a, a]
  | [a, b] => [a, b, b]
  | l => l

/-- The leg-building loop of open_copy_trade (src/trading.py 272-290):
fractions 33/33/34 percent zipped with the padded TP list; TP and SL
rounded to the pair precision, with Python falsiness of 0 and None
mapping a missing or zero TP or SL to 0. -/
def buildLegs (pair_index : ℕ) (base quote : String) (is_long : Bool)
    (amount_in leverage current_price : ℚ) (tp_prices : List ℚ)
    (sl_price : Option ℚ) : List Leg :=
  let fractions : List ℚ := [33 / 100, 33 / 100, 34 / 100]
  let tp_list := padTo3 tp_prices current_price
  let prec := price_precision base quote
  (fractions.zip tp_list).map (fun ft =>
    { collateral := pyRound (amount_in * ft.1) 6
      asset_type := pair_index
      direction := is_long
      leverage := leverage
      tp := if (ft.2 : ℚ) = 0 then 0 else pyRound ft.2 prec
      sl := match sl_price with
            | none => 0
            | some s => if s = 0 then 0 else pyRound s prec })

/-- Result of open_copy_trade: simulated in dry-run mode, submitted in
live mode (receipts modelled as the leg parameters handed to the sink). -/
inductive TradeResult where
  | simulated (current_price : ℚ) (trades : List Leg)
  | submitted (current_price : ℚ) (receipts : List Leg)
deriving DecidableEq

/-- Embedding of TradingClient.open_copy_trade (src/trading.py 252-309)
composed with TradingClient.get_price (lines 203-224): in dry-run mode
(test_mode or missing SDK client) get_price returns the sentinel 0,
otherwise it returns the external oracle price, here the parameter
live_price. A resolved price that is not positive raises; otherwise
three legs are built and either returned as simulated (dry run) or
submitted sequentially to the sink (live). -/
def open_copy_trade (dry_run : Bool) (live_price : ℚ) (pair_index : ℕ)
    (base quote : String) (is_long : Bool) (amount_in leverage : ℚ)
    (slippage_bps : ℤ) (tp_prices : List ℚ) (sl_price : Option ℚ) :
    Except String TradeResult :=
  let current_price := if dry_run then 0 else live_price
  if current_price ≤ 0 then
    Except.error "Prix actuel indisponible pour le copy-trade."
  else
    let trades_params :=
      buildLegs pair_index base quote is_long amount_in leverage current_price
        tp_prices sl_price
    if dry_run then
      Except.ok (TradeResult.simulated current_price trades_params)
    else
      Except.ok (TradeResult.submitted current_price trades_params)

/-- The legs actually handed to the external trade sink by one
open_copy_trade execution: empty unless a live submission happened. -/
def submitted_legs : Except String TradeResult → List Leg
  | Except.ok (TradeResult.submitted _ rs) => rs
  | _ => []

/-- C3: the dry-run path of the code contradicts the claim. In dry-run
mode get_price returns the sentinel 0, so every open_copy_trade
execution trips the positive-price guard and raises the
price-unavailable error instead of returning the documented simulated
result: the simulated branch is unreachable in dry-run mode. -/
theorem dry_run_copy_trade_errors (lp : ℚ) (pi : ℕ) (b q : String)
    (il : Bool) (am lev : ℚ) (slip : ℤ) (tps : List ℚ) (slo : Option ℚ) :
    open_copy_trade true lp pi b q il am lev slip tps slo
      = Except.error "Prix actuel indisponible pour le copy-trade." := by
  simp [open_copy_trade]

/-- C4: whenever the resolved current spot price is nonpositive,
open_copy_trade fails with the price-unavailable error, and no leg is
handed to the external trade sink in that execution. -/
theorem copy_trade_price_guard (dr : Bool) (lp : ℚ) (pi : ℕ)
    (b q : String) (il : Bool) (am lev : ℚ) (slip : ℤ) (tps : List ℚ)
    (slo : Option ℚ) (h : (if dr then (0:ℚ) else lp) ≤ 0) :
    open_copy_trade dr lp pi b q il am lev slip tps slo
        = Except.error "Prix actuel indisponible pour le copy-trade."
      ∧ submitted_legs (open_copy_trade dr lp pi b q il am lev slip tps slo)
        = [] := by
  have he : open_copy_trade dr lp pi b q il am lev slip tps slo
      = Except.error "Prix actuel indisponible pour le copy-trade." := by
    simp only [open_copy_trade]
    rw [if_pos h]
  exact ⟨he, by rw [he]; rfl⟩

/-- Witness for copy_trade_price_guard: a live execution whose oracle
returned a price of 0. -/
theorem copy_trade_price_guard_w :
    ((if false then (0:ℚ) else 0) ≤ 0) ∧
    (open_copy_trade false 0 1 "BTC" "USD" true 300 2 10 [105] none
        = Except.error "Prix actuel indisponible pour le copy-trade."
      ∧ submitted_legs
          (open_copy_trade false 0 1 "BTC" "USD" true 300 2 10 [105] none)
        = []) := by
  refine ⟨by norm_num, ?_⟩
  exact copy_trade_price_guard false 0 1 "BTC" "USD" true 300 2 10 [105]
    none (by norm_num)

/-- C5: a live open_copy_trade execution with positive spot price
submits exactly three legs; collaterals are 33, 33, 34 percent of
amount_in rounded to 6 decimals; every leg carries the same single SL
value; the TP list is padded to length three by repeating its last
value when one or two targets were supplied, and truncated to the first
three otherwise; the pair precision is 2 for BTC, ETH, XAU, XAG quoted
in USD, 4 for any other USD-quoted pair, 8 for non-USD quotes; and
amount_in 300 with the single TP target 105 on BTC-USD yields
collaterals 99, 99, 102 and the same TP 105 on every leg. -/
theorem three_leg_split_spec :
    (∀ (lp : ℚ) (pi : ℕ) (b q : String) (il : Bool) (am lev : ℚ)
       (slip : ℤ) (tps : List ℚ) (slo : Option ℚ), 0 < lp →
      open_copy_trade false lp pi b q il am lev slip tps slo
        = Except.ok (TradeResult.submitted lp
            (buildLegs pi b q il am lev lp tps slo))) ∧
    (∀ (pi : ℕ) (b q : String) (il : Bool) (am lev lp : ℚ)
       (tps : List ℚ) (slo : Option ℚ),
      (buildLegs pi b q il am lev lp tps slo).length = 3 ∧
      (buildLegs pi b q il am lev lp tps slo).map Leg.collateral
        = [pyRound (am * (33 / 100)) 6, pyRound (am * (33 / 100)) 6,
           pyRound (am * (34 / 100)) 6] ∧
      (buildLegs pi b q il am lev lp tps slo).map Leg.sl
        = [(match slo with
            | none => 0
            | some s => if s = 0 then 0 else pyRound s (price_precision b q)),
           (match slo with
            | none => 0
            | some s => if s = 0 then 0 else pyRound s (price_precision b q)),
           (match slo with
            | none => 0
            | some s => if s = 0 then 0 else pyRound s (price_precision b q))]) ∧
    (∀ (pi : ℕ) (b q : String) (il : Bool) (am lev lp t1 : ℚ)
       (slo : Option ℚ),
      (buildLegs pi b q il am lev lp [t1] slo).map Leg.tp
        = [if t1 = 0 then 0 else pyRound t1 (price_precision b q),
           if t1 = 0 then 0 else pyRound t1 (price_precision b q),
           if t1 = 0 then 0 else pyRound t1 (price_precision b q)]) ∧
    (∀ (pi : ℕ) (b q : String) (il : Bool) (am lev lp t1 t2 : ℚ)
       (slo : Option ℚ),
      (buildLegs pi b q il am lev lp [t1, t2] slo).map Leg.tp
        = [if t1 = 0 then 0 else pyRound t1 (price_precision b q),
           if t2 = 0 then 0 else pyRound t2 (price_precision b q),
           if t2 = 0 then 0 else pyRound t2 (price_precision b q)]) ∧
    (∀ (pi : ℕ) (b q : String) (il : Bool) (am lev lp t1 t2 t3 : ℚ)
       (rest : List ℚ) (slo : Option ℚ),
      (buildLegs pi b q il am lev lp (t1 :: t2 :: t3 :: rest) slo).map Leg.tp
        = [if t1 = 0 then 0 else pyRound t1 (price_precision b q),
           if t2 = 0 then 0 else pyRound t2 (price_precision b q),
           if t3 = 0 then 0 else pyRound t3 (price_precision b q)]) ∧
    (price_precision "BTC" "USD" = 2 ∧ price_precision "ETH" "USD" = 2 ∧
     price_precision "XAU" "USD" = 2 ∧ price_precision "XAG" "USD" = 2 ∧
     (∀ b : String, pyUpper b ≠ "BTC" → pyUpper b ≠ "ETH" →
       pyUpper b ≠ "XAU" → pyUpper b ≠ "XAG" →
       price_precision b "USD" = 4) ∧
     (∀ b q : String, pyUpper q ≠ "USD" → price_precision b q = 8)) ∧
    ((buildLegs 1 "BTC" "USD" true 300 2 100 [105] none).map Leg.collateral
        = [99, 99, 102] ∧
     (buildLegs 1 "BTC" "USD" true 300 2 100 [105] none).map Leg.tp
        = [105, 105, 105]) := by
  refine ⟨?_, ?_, ?_, ?_, ?_, ⟨by decide, by decide, by decide, by decide,
    ?_, ?_⟩, ?_, ?_⟩
  · intro lp pi b q il am lev slip tps slo h
    simp [open_copy_trade, not_le.mpr h]
  · intro pi b q il am lev lp tps slo
    rcases tps with _ | ⟨t1, _ | ⟨t2, _ | ⟨t3, rest⟩⟩⟩ <;>
      simp [buildLegs, padTo3]
  · intro pi b q il am lev lp t1 slo
    simp [buildLegs, padTo3]
  · intro pi b q il am lev lp t1 t2 slo
    simp [buildLegs, padTo3]
  · intro pi b q il am lev lp t1 t2 t3 rest slo
    simp [buildLegs, padTo3]
  · intro b h1 h2 h3 h4
    simp only [price_precision]
    rw [if_pos (by decide : pyUpper "USD" = "USD"),
      if_neg (not_or.mpr ⟨h1, h2⟩), if_neg (not_or.mpr ⟨h3, h4⟩)]
  · intro b q hq
    simp only [price_precision]
    rw [if_neg hq]
  · have h1 : pyRound ((300:ℚ) * (33 / 100)) 6 = 99 := by
      have he : ((300:ℚ) * (33 / 100)) = ((99:ℤ) : ℚ) := by norm_num
      rw [he, pyRound_intCast] <;> norm_num
    have h2 : pyRound ((300:ℚ) * (34 / 100)) 6 = 102 := by
      have he : ((300:ℚ) * (34 / 100)) = ((102:ℤ) : ℚ) := by norm_num
      rw [he, pyRound_intCast] <;> norm_num
    simp [buildLegs, padTo3, h1, h2]
  · have hp : price_precision "BTC" "USD" = 2 := by decide
    have h3 : pyRound (105:ℚ) 2 = 105 := by
      have he : ((105:ℚ)) = ((105:ℤ) : ℚ) := by norm_num
      rw [he, pyRound_intCast] <;> norm_num
    simp [buildLegs, padTo3, hp, h3]

/-- Witness for three_leg_split_spec at concrete inputs. -/
theorem three_leg_split_spec_w :
    ((0:ℚ) < 100 ∧
      open_copy_trade false 100 1 "BTC" "USD" true 300 2 10 [105] none
        = Except.ok (TradeResult.submitted 100
            (buildLegs 1 "BTC" "USD" true 300 2 100 [105] none))) ∧
    (pyUpper "EUR" ≠ "BTC" ∧ price_precision "EUR" "USD" = 4) ∧
    (pyUpper "ETH" ≠ "USD" ∧ price_precision "SOL" "ETH" = 8) := by
  refine ⟨⟨by norm_num, ?_⟩, ⟨by decide, ?_⟩, ⟨by decide, ?_⟩⟩
  · exact three_leg_split_spec.1 100 1 "BTC" "USD" true 300 2 10 [105]
      none (by norm_num)
  · exact three_leg_split_spec.2.2.2.2.2.1.2.2.2.2.1 "EUR" (by decide) (by decide)
      (by decide) (by decide)
  · exact three_leg_split_spec.2.2.2.2.2.1.2.2.2.2.2 "SOL" "ETH" (by decide)

/-- C10: a live open_copy_trade execution with positive spot price and
an empty TP list, as handed over when TP and SL copying is disabled,
gives every one of the three legs a TP equal to the spot price rounded
to the pair precision, and an SL of 0. -/
theorem empty_tp_legs_get_spot (lp : ℚ) (pi : ℕ) (b q : String)
    (il : Bool) (am lev : ℚ) (slip : ℤ) (h : 0 < lp) :
    open_copy_trade false lp pi b q il am lev slip [] none
      = Except.ok (TradeResult.submitted lp
          (buildLegs pi b q il am lev lp [] none))
    ∧ (buildLegs pi b q il am lev lp [] none).map Leg.tp
      = [pyRound lp (price_precision b q), pyRound lp (price_precision b q),
         pyRound lp (price_precision b q)]
    ∧ (buildLegs pi b q il am lev lp [] none).map Leg.sl = [0, 0, 0] := by
  refine ⟨?_, ?_, ?_⟩
  · simp [open_copy_trade, not_le.mpr h]
  · simp [buildLegs, padTo3, h.ne']
  · simp [buildLegs, padTo3]

/-- Witness for empty_tp_legs_get_spot at a concrete input. -/
theorem empty_tp_legs_get_spot_w :
    (0:ℚ) < 100 ∧
    (open_copy_trade false 100 1 "BTC" "USD" true 300 2 10 [] none
        = Except.ok (TradeResult.submitted 100
            (buildLegs 1 "BTC" "USD" true 300 2 100 [] none))
      ∧ (buildLegs 1 "BTC" "USD" true 300 2 100 [] none).map Leg.tp
        = [pyRound 100 (price_precision "BTC" "USD"),
           pyRound 100 (price_precision "BTC" "USD"),
           pyRound 100 (price_precision "BTC" "USD")]
      ∧ (buildLegs 1 "BTC" "USD" true 300 2 100 [] none).map Leg.sl
        = [0, 0, 0]) := by
  exact ⟨by norm_num,
    empty_tp_legs_get_spot 100 1 "BTC" "USD" true 300 2 10 (by norm_num)⟩

/-- One normalized open position as consumed by the snapshot builder
(normalization of fetch_open_trades, src/trading.py 151-188). -/
structure Position where
  id : ℕ
  trader : String
  pair_index : ℕ
  is_long : Bool
  size_usd : ℚ
  entry_price : ℚ
  leverage : ℚ
deriving DecidableEq

/-- Pair metadata as produced by fetch_pairs (src/trading.py 128-149). -/
structure PairInfo where
  base : String
  quote : String
  symbol : String
deriving DecidableEq

/-- One enriched position view of the snapshot (src/main.py 53-69). -/
structure View where
  id : ℕ
  trader : String
  pair_index : ℕ
  pair : String
  is_long : Bool
  drawdown : ℚ
  pnl_pct : ℚ
  size_usd : ℚ
  entry_price : ℚ
  current_price : ℚ
  leverage : ℚ
  base : String
  quote : String
deriving DecidableEq

/-- Lookup in the pass-scoped price cache, keyed by pair index. -/
def cacheLookup : List (ℕ × ℚ) → ℕ → Option ℚ
  | [], _ => none
  | (k, v) :: rest, i => if i = k then some v else cacheLookup rest i

theorem cacheLookup_cons (k : ℕ) (v : ℚ) (c : List (ℕ × ℚ)) (i : ℕ) :
    cacheLookup ((k, v) :: c) i = if i = k then some v else cacheLookup c i := rfl

/-- State threaded through one snapshot pass: the pass-scoped price
cache, the pair indices for which the price oracle was actually called,
and the views built so far. -/
structure SnapState where
  cache : List (ℕ × ℚ)
  fetched : List ℕ
  views : List View
deriving DecidableEq

/-- src/main.py 32: base of the resolved pair, with placeholder. -/
def pair_base (pm : ℕ → Option PairInfo) (i : ℕ) : String :=
  match pm i with
  | some info => info.base
  | none => "UNKNOWN"

/-- src/main.py 33: quote of the resolved pair, defaulting to USD. -/
def pair_quote (pm : ℕ → Option PairInfo) (i : ℕ) : String :=
  match pm i with
  | some info => info.quote
  | none => "USD"

/-- src/main.py 34: symbol of the resolved pair, with derived default. -/
def pair_symbol (pm : ℕ → Option PairInfo) (i : ℕ) : String :=
  match pm i with
  | some info => info.symbol
  | none => pair_base pm i ++ "-" ++ pair_quote pm i

/-- src/main.py 39-44: the current price of one position from the
oracle answer, falling back to the entry price when the oracle raises
or returns a nonpositive price. -/
def resolve_price (ans : Except String ℚ) (entry : ℚ) : ℚ :=
  match ans with
  | Except.ok p => if p ≤ 0 then entry else p
  | Except.error _ => entry

/-- src/main.py 47-69: build one view from a position and its resolved
current price, updating the pass state. The inline PnL computation
divides by the entry price with no zero guard, so, as in the source, a
zero entry price raises (modelled as an Except error for the Python
ZeroDivisionError); drawdown goes through the guarded compute_drawdown;
both are rounded to two decimals for display. -/
def snapEmit (pos : Position) (symbol base quote : String) (st : SnapState)
    (cache' : List (ℕ × ℚ)) (fetched' : List ℕ) (cp : ℚ) :
    Except String SnapState :=
  if pos.entry_price = 0 then
    Except.error "ZeroDivisionError: float division by zero"
  else
    Except.ok
      { cache := cache'
        fetched := fetched'
        views := st.views ++
          [{ id := pos.id, trader := pos.trader, pair_index := pos.pair_index,
             pair := symbol, is_long := pos.is_long,
             drawdown := pyRound
               (compute_drawdown pos.entry_price cp pos.is_long pos.leverage) 2,
             pnl_pct := pyRound
               (((cp - pos.entry_price) / pos.entry_price)
                 * (if pos.is_long then 1 else -1) * pos.leverage * 100) 2,
             size_usd := pos.size_usd, entry_price := pos.entry_price,
             current_price := cp, leverage := pos.leverage,
             base := base, quote := quote }] }

/-- src/main.py 30-69: one iteration of the snapshot loop. The price is
taken from the pass-scoped cache when the pair index is present;
otherwise the oracle is called once, the fallback applied, and the
result cached and recorded in the fetch trace. -/
def snapStep (oracle : String → String → Except String ℚ)
    (pm : ℕ → Option PairInfo) (st : SnapState) (pos : Position) :
    Except String SnapState :=
  match cacheLookup st.cache pos.pair_index with
  | some p =>
      snapEmit pos (pair_symbol pm pos.pair_index) (pair_base pm pos.pair_index)
        (pair_quote pm pos.pair_index) st st.cache st.fetched p
  | none =>
      snapEmit pos (pair_symbol pm pos.pair_index) (pair_base pm pos.pair_index)
        (pair_quote pm pos.pair_index) st
        ((pos.pair_index,
            resolve_price
              (oracle (pair_base pm pos.pair_index) (pair_quote pm pos.pair_index))
              pos.entry_price) :: st.cache)
        (st.fetched ++ [pos.pair_index])
        (resolve_price
          (oracle (pair_base pm pos.pair_index) (pair_quote pm pos.pair_index))
          pos.entry_price)

/-- The position loop of build_positions_snapshot (src/main.py 30-69);
an error raised on one position aborts the whole pass. -/
def snapFold (oracle : String → String → Except String ℚ)
    (pm : ℕ → Option PairInfo) (st : SnapState) :
    List Position → Except String SnapState
  | [] => Except.ok st
  | p :: ps =>
      match snapStep oracle pm st p with
      | Except.error e => Except.error e
      | Except.ok st' => snapFold oracle pm st' ps

/-- src/main.py 20-26: fetch the open positions of every tracked
trader in order, swallowing a per-trader fetch failure and omitting
that trader from the result. -/
def collect_positions (fetch : String → Except String (List Position)) :
    List String → List Position
  | [] => []
  | t :: ts =>
      (match fetch t with
       | Except.ok ps => ps
       | Except.error _ => []) ++ collect_positions fetch ts

/-- Embedding of build_positions_snapshot (src/main.py 13-83), with the
tracked traders already resolved from the configuration. Returns the
views of the pass together with the trace of pair indices for which the
price oracle was actually called. -/
def build_positions_snapshot (traders : List String)
    (fetch : String → Except String (List Position))
    (oracle : String → String → Except String ℚ)
    (pm : ℕ → Option PairInfo) : Except String (List View × List ℕ) :=
  if traders = [] then Except.ok ([], [])
  else
    match snapFold oracle pm ⟨[], [], []⟩ (collect_positions fetch traders) with
    | Except.error e => Except.error e
    | Except.ok st => Except.ok (st.views, st.fetched)

theorem snapEmit_ok_fields (pos : Position) (symbol base quote : String)
    (st : SnapState) (cache' : List (ℕ × ℚ)) (fetched' : List ℕ) (cp : ℚ)
    (st1 : SnapState)
    (h : snapEmit pos symbol base quote st cache' fetched' cp = Except.ok st1) :
    st1.cache = cache' ∧ st1.fetched = fetched' := by
  unfold snapEmit at h
  by_cases hz : pos.entry_price = 0
  · rw [if_pos hz] at h
    exact absurd h (by simp)
  · rw [if_neg hz] at h
    injection h with h2
    subst h2
    exact ⟨rfl, rfl⟩

theorem snapStep_ok_state (oracle : String → String → Except String ℚ)
    (pm : ℕ → Option PairInfo) (st : SnapState) (pos : Position)
    (st1 : SnapState) (h : snapStep oracle pm st pos = Except.ok st1) :
    (st1.cache = st.cache ∧ st1.fetched = st.fetched)
    ∨ (cacheLookup st.cache pos.pair_index = none ∧
       (∃ cp, st1.cache = (pos.pair_index, cp) :: st.cache) ∧
       st1.fetched = st.fetched ++ [pos.pair_index]) := by
  unfold snapStep at h
  cases hc : cacheLookup st.cache pos.pair_index with
  | some p =>
    rw [hc] at h
    exact Or.inl (snapEmit_ok_fields _ _ _ _ _ _ _ _ _ h)
  | none =>
    rw [hc] at h
    have h2 := snapEmit_ok_fields _ _ _ _ _ _ _ _ _ h
    exact Or.inr ⟨rfl, ⟨_, h2.1⟩, h2.2⟩

theorem snapFold_fetched_nodup (oracle : String → String → Except String ℚ)
    (pm : ℕ → Option PairInfo) :
    ∀ (ps : List Position) (st : SnapState),
      st.fetched.Nodup →
      (∀ j ∈ st.fetched, (cacheLookup st.cache j).isSome) →
      ∀ st', snapFold oracle pm st ps = Except.ok st' →
        st'.fetched.Nodup := by
  intro ps
  induction ps with
  | nil =>
    intro st h1 h2 st' h
    simp only [snapFold] at h
    injection h with h3
    subst h3
    exact h1
  | cons p ps ih =>
    intro st h1 h2 st' h
    simp only [snapFold] at h
    cases hs : snapStep oracle pm st p with
    | error e =>
      rw [hs] at h
      exact absurd h (by simp)
    | ok st1 =>
      rw [hs] at h
      rcases snapStep_ok_state oracle pm st p st1 hs with
        ⟨hcac, hfet⟩ | ⟨hnone, ⟨cp, hcac⟩, hfet⟩
      · exact ih st1 (by rw [hfet]; exact h1)
          (by intro j hj; rw [hfet] at hj; rw [hcac]; exact h2 j hj) st' h
      · have hnotin : p.pair_index ∉ st.fetched := by
          intro hmem
          have := h2 p.pair_index hmem
          rw [hnone] at this
          simp at this
        refine ih st1 ?_ ?_ st' h
        · rw [hfet]
          simp [List.nodup_append, h1, hnotin]
        · intro j hj
          rw [hfet] at hj
          rw [hcac, cacheLookup_cons]
          by_cases hji : j = p.pair_index
          · rw [if_pos hji]
            rfl
          · rw [if_neg hji]
            have hjmem : j ∈ st.fetched := by
              rcases List.mem_append.mp hj with hl | hr
              · exact hl
              · exact absurd (List.mem_singleton.mp hr) hji
            exact h2 j hjmem

/-- C6: during one snapshot pass the price oracle is called at most
once per pair index (the trace of oracle calls has no duplicate pair
index); a failing or nonpositive oracle answer makes the position fall
back to its own entry price; and a position with entry price 50 and a
failing price source gets current price 50 and drawdown 0. -/
theorem snapshot_price_cache_fallback :
    (∀ (traders : List String)
       (fetch : String → Except String (List Position))
       (oracle : String → String → Except String ℚ)
       (pm : ℕ → Option PairInfo) (views : List View) (fetched : List ℕ),
      build_positions_snapshot traders fetch oracle pm
        = Except.ok (views, fetched) → fetched.Nodup) ∧
    (∀ (ans : Except String ℚ) (entry : ℚ),
      ((∃ e, ans = Except.error e) ∨ (∃ p, ans = Except.ok p ∧ p ≤ 0)) →
      resolve_price ans entry = entry) ∧
    (build_positions_snapshot ["t"]
        (fun _ => Except.ok [(⟨7, "t", 3, true, 100, 50, 2⟩ : Position)])
        (fun _ _ => Except.error "down")
        (fun _ => some (⟨"BTC", "USD", "BTC-USD"⟩ : PairInfo))
      = Except.ok
          ([(⟨7, "t", 3, "BTC-USD", true, 0, 0, 100, 50, 50, 2,
              "BTC", "USD"⟩ : View)], [3])) := by
  refine ⟨?_, ?_, ?_⟩
  · intro traders fetch oracle pm views fetched h
    unfold build_positions_snapshot at h
    by_cases ht : traders = []
    · rw [if_pos ht] at h
      injection h with h2
      have : fetched = [] := congrArg Prod.snd h2.symm
      rw [this]
      exact List.nodup_nil
    · rw [if_neg ht] at h
      cases hf : snapFold oracle pm ⟨[], [], []⟩
          (collect_positions fetch traders) with
      | error e =>
        rw [hf] at h
        exact absurd h (by simp)
      | ok st =>
        rw [hf] at h
        injection h with h2
        have : fetched = st.fetched := congrArg Prod.snd h2.symm
        rw [this]
        exact snapFold_fetched_nodup oracle pm _ ⟨[], [], []⟩
          List.nodup_nil (by intro j hj; exact absurd hj (by simp)) st hf
  · intro ans entry h
    rcases h with ⟨e, he⟩ | ⟨p, hp, hple⟩
    · rw [he]
      rfl
    · rw [hp]
      simp [resolve_price, hple]
  · have hdd : compute_drawdown 50 50 true 2 = 0 := by
      unfold compute_drawdown
      norm_num
    have hp0 : pyRound (0 : ℚ) 2 = 0 := by
      have := pyRound_intCast 0 2
      simpa using this
    simp [build_positions_snapshot, collect_positions, snapFold, snapStep,
      snapEmit, resolve_price, cacheLookup, pair_base, pair_quote,
      pair_symbol, hdd, hp0]

/-- Witness for snapshot_price_cache_fallback at concrete inputs. -/
theorem snapshot_price_cache_fallback_w :
    (build_positions_snapshot [] (fun _ => Except.ok [])
        (fun _ _ => Except.error "down") (fun _ => none)
      = Except.ok ([], []) ∧ ([] : List ℕ).Nodup) ∧
    ((∃ e, (Except.error "down" : Except String ℚ) = Except.error e) ∧
      resolve_price (Except.error "down") 50 = 50) := by
  refine ⟨⟨rfl, ?_⟩, ⟨⟨"down", rfl⟩, ?_⟩⟩
  · exact snapshot_price_cache_fallback.1 [] (fun _ => Except.ok [])
      (fun _ _ => Except.error "down") (fun _ => none) [] [] rfl
  · exact snapshot_price_cache_fallback.2.1 (Except.error "down") 50
      (Or.inl ⟨"down", rfl⟩)

/-- C7: an empty tracked-traders list yields an empty snapshot; a fetch
failure for one trader omits exactly that trader's positions while all
other traders' positions keep their place in the collected list, so one
trader's failure never fails the whole collection. -/
theorem snapshot_best_effort :
    (∀ (fetch : String → Except String (List Position))
       (oracle : String → String → Except String ℚ)
       (pm : ℕ → Option PairInfo),
      build_positions_snapshot [] fetch oracle pm = Except.ok ([], [])) ∧
    (∀ (fetch : String → Except String (List Position)) (t e : String)
       (l1 l2 : List String), fetch t = Except.error e →
      collect_positions fetch (l1 ++ t :: l2)
        = collect_positions fetch l1 ++ collect_positions fetch l2) ∧
    (∀ (fetch : String → Except String (List Position)) (t : String)
       (ps : List Position) (l1 l2 : List String), fetch t = Except.ok ps →
      collect_positions fetch (l1 ++ t :: l2)
        = collect_positions fetch l1 ++ ps ++ collect_positions fetch l2) := by
  refine ⟨?_, ?_, ?_⟩
  · intro fetch oracle pm
    rfl
  · intro fetch t e l1 l2 h
    induction l1 with
    | nil => simp [collect_positions, h]
    | cons a l ih => simp [collect_positions, ih]
  · intro fetch t ps l1 l2 h
    induction l1 with
    | nil => simp [collect_positions, h]
    | cons a l ih => simp [collect_positions, ih]

/-- Witness for snapshot_best_effort: two traders, the first failing. -/
theorem snapshot_best_effort_w :
    ((fun s => if s = "bad" then (Except.error "boom" :
        Except String (List Position))
      else Except.ok [(⟨1, s, 0, true, 10, 5, 2⟩ : Position)]) "bad"
        = Except.error "boom") ∧
    collect_positions
        (fun s => if s = "bad" then (Except.error "boom" :
            Except String (List Position))
          else Except.ok [(⟨1, s, 0, true, 10, 5, 2⟩ : Position)])
        ([] ++ "bad" :: ["good"])
      = collect_positions
          (fun s => if s = "bad" then (Except.error "boom" :
              Except String (List Position))
            else Except.ok [(⟨1, s, 0, true, 10, 5, 2⟩ : Position)]) []
        ++ collect_positions
            (fun s => if s = "bad" then (Except.error "boom" :
                Except String (List Position))
              else Except.ok [(⟨1, s, 0, true, 10, 5, 2⟩ : Position)])
            ["good"] := by
  refine ⟨rfl, ?_⟩
  exact snapshot_best_effort.2.1
    (fun s => if s = "bad" then (Except.error "boom" :
        Except String (List Position))
      else Except.ok [(⟨1, s, 0, true, 10, 5, 2⟩ : Position)])
    "bad" "boom" [] ["good"] rfl

/-- C9: a fetched position whose entry price is exactly 0 makes
build_positions_snapshot raise the division-by-zero error from the
inline PnL computation, which lacks the nonpositive-entry guard that
compute_drawdown applies, so the whole snapshot pass fails on one
degenerate record. -/
theorem snapshot_zero_entry_divzero :
    build_positions_snapshot ["t"]
        (fun _ => Except.ok [(⟨1, "t", 0, true, 100, 0, 2⟩ : Position)])
        (fun _ _ => Except.error "down") (fun _ => none)
      = Except.error "ZeroDivisionError: float division by zero" := rfl

/-- The drawdown-band test of monitor_drawdown (src/main.py 98),
inclusive on both bounds. -/
def inBand (dmin dmax : ℚ) (v : View) : Bool :=
  decide (dmin ≤ v.drawdown) && decide (v.drawdown ≤ dmax)

/-- One iteration of the monitor loop (src/main.py 93-106): a failed
snapshot is caught and logged and dispatches nothing; a successful one
dispatches one alert per view inside the inclusive drawdown band, in
snapshot order. -/
def monitorIter (dmin dmax : ℚ) (snap : Except String (List View)) :
    List View :=
  match snap with
  | Except.error _ => []
  | Except.ok views => views.filter (inBand dmin dmax)

/-- The monitor loop of monitor_drawdown (src/main.py 93-106) after n
iterations, the snapshot outcome of iteration k given by snaps k; the
list of per-iteration alert batches. -/
def monitorRun (dmin dmax : ℚ) (snaps : ℕ → Except String (List View)) :
    ℕ → List (List View)
  | 0 => []
  | n + 1 => monitorRun dmin dmax snaps n ++ [monitorIter dmin dmax (snaps n)]

/-- C8: the monitor loop performs every iteration whatever the snapshot
outcomes (an exception inside an iteration never terminates the loop);
an iteration with a successful snapshot dispatches the in-band views,
one alert per view, none for a view outside the band, with both bounds
inclusive; an iteration whose snapshot raised dispatches nothing. -/
theorem monitor_band_and_survival :
    (∀ (dmin dmax : ℚ) (snaps : ℕ → Except String (List View)) (n : ℕ),
      (monitorRun dmin dmax snaps n).length = n) ∧
    (∀ (dmin dmax : ℚ) (snaps : ℕ → Except String (List View)) (n : ℕ)
       (views : List View), snaps n = Except.ok views →
      (monitorRun dmin dmax snaps (n + 1)).getLast?
        = some (views.filter (inBand dmin dmax))) ∧
    (∀ (dmin dmax : ℚ) (views : List View) (v : View),
      v ∈ views.filter (inBand dmin dmax)
        ↔ (v ∈ views ∧ dmin ≤ v.drawdown ∧ v.drawdown ≤ dmax)) ∧
    (∀ (dmin dmax : ℚ) (v : View),
      v.drawdown = dmin ∨ v.drawdown = dmax → dmin ≤ dmax →
      inBand dmin dmax v = true) ∧
    (∀ (dmin dmax : ℚ) (snaps : ℕ → Except String (List View)) (n : ℕ)
       (e : String), snaps n = Except.error e →
      monitorIter dmin dmax (snaps n) = []) := by
  refine ⟨?_, ?_, ?_, ?_, ?_⟩
  · intro dmin dmax snaps n
    induction n with
    | zero => rfl
    | succ n ih => simp [monitorRun, ih]
  · intro dmin dmax snaps n views h
    simp [monitorRun, monitorIter, h]
  · intro dmin dmax views v
    simp [List.mem_filter, inBand]
  · intro dmin dmax v h hle
    rcases h with h | h <;>
      simp [inBand, h, hle]
  · intro dmin dmax snaps n e h
    simp [monitorIter, h]

/-- Witness for monitor_band_and_survival at concrete inputs. -/
theorem monitor_band_and_survival_w :
    ((fun _ : ℕ => (Except.ok
        [(⟨1, "t", 0, "BTC-USD", true, 5, -10, 100, 50, 49, 2,
          "BTC", "USD"⟩ : View)] : Except String (List View))) 0
      = Except.ok [(⟨1, "t", 0, "BTC-USD", true, 5, -10, 100, 50, 49, 2,
          "BTC", "USD"⟩ : View)]) ∧
    ((monitorRun 0 10 (fun _ => (Except.ok
        [(⟨1, "t", 0, "BTC-USD", true, 5, -10, 100, 50, 49, 2,
          "BTC", "USD"⟩ : View)] : Except String (List View))) 1).getLast?
      = some ([(⟨1, "t", 0, "BTC-USD", true, 5, -10, 100, 50, 49, 2,
          "BTC", "USD"⟩ : View)].filter (inBand 0 10))) ∧
    ((fun _ : ℕ => (Except.error "boom" : Except String (List View))) 0
      = Except.error "boom") ∧
    monitorIter 0 10
        ((fun _ : ℕ => (Except.error "boom" : Except String (List View))) 0)
      = [] := by
  refine ⟨rfl, ?_, rfl, ?_⟩
  · exact monitor_band_and_survival.2.1 0 10 (fun _ => (Except.ok
      [(⟨1, "t", 0, "BTC-USD", true, 5, -10, 100, 50, 49, 2,
        "BTC", "USD"⟩ : View)] : Except String (List View))) 0
      [(⟨1, "t", 0, "BTC-USD", true, 5, -10, 100, 50, 49, 2,
        "BTC", "USD"⟩ : View)] rfl
  · exact monitor_band_and_survival.2.2.2.2 0 10
      (fun _ => (Except.error "boom" : Except String (List View))) 0 "boom" rfl

end Ostium
